import Mathlib

/-!
Verification of the format-translation engine of `kerbal_savefile_viewer.py`.

The Python source is shallowly embedded: Python values appearing in the
parsed tree are the inductive type `PyVal`; Python `str.replace`, `str.split`,
`str.rstrip`, `int(...)`, `float(...)` acceptance and `json.loads` (with
`object_pairs_hook`) are modelled as executable Lean functions on `List Char` /
`String`; Python exceptions (`AttributeError`, `KeyError`, `IndexError`,
`TypeError`) are modelled with `Except`.

Modelling notes, stated once here:
* Python `float` values are represented symbolically by their (whitespace
  stripped) source text; `str()` of such a float is modelled as that text,
  which is exact whenever the text is already in Python's canonical shortest
  form (as in every concrete instance proved below).  No theorem below
  depends on two distinct strings denoting the same IEEE value.
* Numeric-literal underscores and non-ASCII digits accepted by Python's
  `int()` / `float()` are not modelled.
* Python `dict` is modelled as an insertion-ordered association list with
  unique keys; assignment to an existing key replaces the value in place.
-/

/-- Python whitespace characters recognised by `str.strip()` (ASCII part). -/
def isPyWs (c : Char) : Bool :=
  c = ' ' ∨ c = '\t' ∨ c = '\n' ∨ c = '\r' ∨ c = '\x0b' ∨ c = '\x0c'

/-- Strip leading and trailing Python whitespace from a character list. -/
def trimWs (l : List Char) : List Char :=
  ((l.dropWhile isPyWs).reverse.dropWhile isPyWs).reverse

/-- Fuel-driven core of Python `str.replace`: replace every non-overlapping
occurrence of `pat` (scanned left to right, the replacement text is not
rescanned) by `rep`.  Fuel `s.length` is always sufficient because every
step consumes at least one character of `s`. -/
def replaceFuel : Nat → List Char → List Char → List Char → List Char
  | 0, s, _, _ => s
  | _ + 1, [], _, _ => []
  | fuel + 1, c :: rest, pat, rep =>
    if pat.isPrefixOf (c :: rest) then
      rep ++ replaceFuel fuel ((c :: rest).drop pat.length) pat rep
    else
      c :: replaceFuel fuel rest pat rep

/-- Python `s.replace(pat, rep)` (for the non-empty patterns used by the
source; an empty pattern is returned unchanged, a case the source never
exercises). -/
def pyReplace (s pat rep : String) : String :=
  if pat.data = [] then s else String.mk (replaceFuel s.data.length s.data pat.data rep.data)

/-- Python `s.split(sep)` for a single-character separator: splits at every
occurrence, keeping empty fields; the result is never empty. -/
def splitOnCh (sep : Char) : List Char → List (List Char)
  | [] => [[]]
  | c :: cs =>
    if c = sep then [] :: splitOnCh sep cs
    else
      match splitOnCh sep cs with
      | [] => [[c]]
      | g :: gs => (c :: g) :: gs

/-- Python `s.rstrip('/')`: drop every trailing `'/'`. -/
def rstripSlash (l : List Char) : List Char :=
  (l.reverse.dropWhile (fun c => c = '/')).reverse

/-- Numeric value of a list of ASCII digits. -/
def digitsVal (l : List Char) : Nat :=
  l.foldl (fun a c => a * 10 + (c.toNat - 48)) 0

/-- Model of Python `int(s)` on strings: optional surrounding whitespace,
optional sign, then one or more ASCII digits; `none` models `ValueError`. -/
def pyIntParse (s : String) : Option Int :=
  match trimWs s.data with
  | '+' :: ds => if ds ≠ [] ∧ ds.all Char.isDigit then some (digitsVal ds) else none
  | '-' :: ds => if ds ≠ [] ∧ ds.all Char.isDigit then some (-(digitsVal ds : Int)) else none
  | ds => if ds ≠ [] ∧ ds.all Char.isDigit then some (digitsVal ds) else none

/-- Drop one optional leading sign character. -/
def dropSign : List Char → List Char
  | '+' :: t => t
  | '-' :: t => t
  | t => t

/-- Split off a maximal run of leading ASCII digits. -/
def spanDigits (l : List Char) : List Char × List Char :=
  (l.takeWhile Char.isDigit, l.dropWhile Char.isDigit)

/-- Exponent tail of a float literal: optional sign then one or more digits. -/
def expTail (t : List Char) : Bool :=
  dropSign t ≠ [] ∧ (dropSign t).all Char.isDigit

/-- Unsigned decimal float literal body: `digits [. digits] [exp]` or
`. digits [exp]`. -/
def isFloatBody (cs : List Char) : Bool :=
  match spanDigits cs with
  | (d1, '.' :: t) =>
    (match spanDigits t with
     | (d2, r2) =>
       if d1 = [] ∧ d2 = [] then false
       else
         match r2 with
         | [] => true
         | 'e' :: t2 => expTail t2
         | 'E' :: t2 => expTail t2
         | _ => false)
  | (d1, 'e' :: t2) => d1 ≠ [] ∧ expTail t2
  | (d1, 'E' :: t2) => d1 ≠ [] ∧ expTail t2
  | (d1, []) => d1 ≠ []
  | _ => false

/-- Signed `inf` / `infinity` / `nan`, case-insensitively. -/
def isInfNanBody (cs : List Char) : Bool :=
  let l := (dropSign cs).map Char.toLower
  l = "inf".data ∨ l = "infinity".data ∨ l = "nan".data

/-- Model of the acceptance of Python `float(s)` on strings: surrounding
whitespace, then a signed decimal literal or signed `inf`/`infinity`/`nan`. -/
def pyFloatOk (s : String) : Bool :=
  isFloatBody (dropSign (trimWs s.data)) ∨ isInfNanBody (trimWs s.data)

/-- The symbolic representative stored for `float(s)`: the stripped text. -/
def floatTok (s : String) : String :=
  String.mk (trimWs s.data)

/-- Python values occurring in the viewer's trees: strings, booleans, `None`,
ints, floats (symbolic, see the file header), tuples (from vector/quaternion
coercion), lists (sequences created by duplicate-key merging) and dicts
(insertion-ordered, unique keys). -/
inductive PyVal where
  | str : String → PyVal
  | bool : Bool → PyVal
  | pynone : PyVal
  | int : Int → PyVal
  | float : String → PyVal
  | tuple : List PyVal → PyVal
  | list : List PyVal → PyVal
  | dict : List (String × PyVal) → PyVal
  deriving Repr

/-- Python dict assignment `d[k] = v`: replace in place if the key is
present (keys are unique in every dict this development builds), else
append. -/
def dictSet : List (String × PyVal) → String → PyVal → List (String × PyVal)
  | [], k, v => [(k, v)]
  | (k', v') :: rest, k, v =>
    if k' = k then (k, v) :: rest else (k', v') :: dictSet rest k v

/-- Python `dict(pairs)`: left fold of assignments over an empty dict. -/
def dictOfPairs (ps : List (String × PyVal)) : List (String × PyVal) :=
  ps.foldl (fun d p => dictSet d p.1 p.2) []

/-- Python `d[k]` lookup on the association-list dict model. -/
def lookupStr : List (String × PyVal) → String → Option PyVal
  | [], _ => none
  | (k', v) :: rest, k => if k' = k then some v else lookupStr rest k

/-- `itertools.groupby(pairs, key)` with the first-component key function:
maximal runs of consecutive pairs sharing a key, each with its values in
source order. -/
def groupRuns : List (String × PyVal) → List (String × List PyVal)
  | [] => []
  | (k, v) :: rest =>
    match groupRuns rest with
    | [] => [(k, [v])]
    | (k2, vs) :: gs =>
      if k = k2 then (k, v :: vs) :: gs else (k, [v]) :: (k2, vs) :: gs

/-- The generator `gpairs` inside `_duplicate_object_hook`: a run of one
keeps its single value, a longer run becomes the Python list of its values
(groups produced by `groupRuns` are never empty, so the `[]` arm is
unreachable). -/
def gpairs (ps : List (String × PyVal)) : List (String × PyVal) :=
  (groupRuns ps).map fun g =>
    match g.2 with
    | [v] => (g.1, v)
    | vs => (g.1, PyVal.list vs)

/-- `_duplicate_object_hook(pairs)` from the source: group consecutive
same-key pairs, then materialise a dict (later runs overwrite earlier ones,
keeping the earlier position, as Python `dict()` does). -/
def duplicate_object_hook (ps : List (String × PyVal)) : List (String × PyVal) :=
  dictOfPairs (gpairs ps)

/-- Errors raised by the JSON decoder model (`json.JSONDecodeError`). -/
inductive JErr where
  | unexpectedEnd : JErr
  | unexpectedChar : Char → JErr
  | invalid : JErr
  deriving Repr, DecidableEq

/-- JSON whitespace skipped by the decoder. -/
def skipWs (l : List Char) : List Char :=
  l.dropWhile fun c => c = ' ' ∨ c = '\t' ∨ c = '\n' ∨ c = '\r'

/-- Hexadecimal digit value. -/
def hexVal (c : Char) : Option Nat :=
  if c.isDigit then some (c.toNat - 48)
  else if 'a' ≤ c ∧ c ≤ 'f' then some (c.toNat - 87)
  else if 'A' ≤ c ∧ c ≤ 'F' then some (c.toNat - 55)
  else none

/-- Body of a JSON string after the opening quote, per Python's strict
decoder: raw control characters are rejected, the standard escapes and
`\uXXXX` are recognised (surrogate pairing is not modelled; no theorem
below exercises it).  Returns the decoded characters and the text after the
closing quote, or `none` on a decode error. -/
def parseJStr : List Char → Option (List Char × List Char)
  | [] => none
  | '"' :: rest => some ([], rest)
  | '\\' :: rest =>
    match rest with
    | '"' :: t => (parseJStr t).map fun p => ('"' :: p.1, p.2)
    | '\\' :: t => (parseJStr t).map fun p => ('\\' :: p.1, p.2)
    | '/' :: t => (parseJStr t).map fun p => ('/' :: p.1, p.2)
    | 'b' :: t => (parseJStr t).map fun p => ('\x08' :: p.1, p.2)
    | 'f' :: t => (parseJStr t).map fun p => ('\x0c' :: p.1, p.2)
    | 'n' :: t => (parseJStr t).map fun p => ('\n' :: p.1, p.2)
    | 'r' :: t => (parseJStr t).map fun p => ('\r' :: p.1, p.2)
    | 't' :: t => (parseJStr t).map fun p => ('\t' :: p.1, p.2)
    | 'u' :: a :: b :: c :: d :: t =>
      match hexVal a, hexVal b, hexVal c, hexVal d with
      | some ha, some hb, some hc, some hd =>
        (parseJStr t).map fun p =>
          (Char.ofNat (((ha * 16 + hb) * 16 + hc) * 16 + hd) :: p.1, p.2)
      | _, _, _, _ => none
    | _ => none
  | c :: rest =>
    if c.toNat < 32 then none
    else (parseJStr rest).map fun p => (c :: p.1, p.2)

/-- JSON number token starting at `cs`: `-?(0|[1-9][0-9]*)(\.[0-9]+)?([eE][+-]?[0-9]+)?`.
A pure-integer token yields `PyVal.int`; a token with a fraction or exponent
yields a (symbolic) `PyVal.float` carrying its text, as `json.loads` builds
a Python `float` there.  `none` when no number token starts here. -/
def parseJNum (cs : List Char) : Option (PyVal × List Char) :=
  let sgn : Bool := match cs with | '-' :: _ => true | _ => false
  let r0 : List Char := if sgn then cs.tail else cs
  match r0 with
  | c :: cs1 =>
    if ¬ c.isDigit then none
    else
      let ds : List Char := if c = '0' then [c] else (spanDigits r0).1
      let r1 : List Char := if c = '0' then cs1 else (spanDigits r0).2
      let frp : List Char × List Char :=
        match r1 with
        | '.' :: t =>
          if (spanDigits t).1 = [] then ([], r1) else ('.' :: (spanDigits t).1, (spanDigits t).2)
        | _ => ([], r1)
      let exp : List Char × List Char :=
        match frp.2 with
        | e :: '+' :: t2 =>
          if (e = 'e' ∨ e = 'E') ∧ (spanDigits t2).1 ≠ [] then
            (e :: '+' :: (spanDigits t2).1, (spanDigits t2).2)
          else ([], frp.2)
        | e :: '-' :: t2 =>
          if (e = 'e' ∨ e = 'E') ∧ (spanDigits t2).1 ≠ [] then
            (e :: '-' :: (spanDigits t2).1, (spanDigits t2).2)
          else ([], frp.2)
        | e :: t2 =>
          if (e = 'e' ∨ e = 'E') ∧ (spanDigits t2).1 ≠ [] then
            (e :: (spanDigits t2).1, (spanDigits t2).2)
          else ([], frp.2)
        | [] => ([], frp.2)
      if frp.1 = [] ∧ exp.1 = [] then
        some (PyVal.int (if sgn then -(digitsVal ds : Int) else (digitsVal ds : Int)), r1)
      else
        some (PyVal.float (String.mk ((if sgn then ['-'] else []) ++ ds ++ frp.1 ++ exp.1)), exp.2)
  | [] => none

/-- `w` as a literal token at the head of `cs`: the rest on success. -/
def jlit (w : String) (cs : List Char) : Option (List Char) :=
  if w.data.isPrefixOf cs then some (cs.drop w.data.length) else none

mutual

/-- One JSON value at the head of `cs` (leading whitespace already skipped
by the caller), per Python's scanner: string, object, array, `null`,
`true`, `false`, number, then the non-standard `NaN` / `Infinity` /
`-Infinity` constants Python accepts.  Objects are materialised through
`duplicate_object_hook`, exactly as `json.loads(s, object_pairs_hook=...)`
does at every nesting level.  The fuel only bounds recursion; every
recursive call consumes input, so callers pass ample fuel. -/
def parseVal : Nat → List Char → Except JErr (PyVal × List Char)
  | 0, _ => .error .invalid
  | fuel + 1, cs =>
    match cs with
    | [] => .error .unexpectedEnd
    | '"' :: rest =>
      match parseJStr rest with
      | some (content, r) => .ok (.str (String.mk content), r)
      | none => .error .invalid
    | '\x7b' :: rest =>
      match skipWs rest with
      | '\x7d' :: r => .ok (.dict (duplicate_object_hook []), r)
      | r => parseMembers fuel r []
    | '[' :: rest =>
      match skipWs rest with
      | ']' :: r => .ok (.list [], r)
      | r => parseElems fuel r []
    | c :: _ =>
      match jlit "null" cs with
      | some r => .ok (.pynone, r)
      | none =>
      match jlit "true" cs with
      | some r => .ok (.bool true, r)
      | none =>
      match jlit "false" cs with
      | some r => .ok (.bool false, r)
      | none =>
      match parseJNum cs with
      | some (v, r) => .ok (v, r)
      | none =>
      match jlit "NaN" cs with
      | some r => .ok (.float "nan", r)
      | none =>
      match jlit "Infinity" cs with
      | some r => .ok (.float "inf", r)
      | none =>
      match jlit "-Infinity" cs with
      | some r => .ok (.float "-inf", r)
      | none => .error (.unexpectedChar c)

/-- Members of a JSON object, positioned at a key's opening quote; on the
closing brace the collected pair stream goes through
`duplicate_object_hook`. -/
def parseMembers : Nat → List Char → List (String × PyVal) →
    Except JErr (PyVal × List Char)
  | 0, _, _ => .error .invalid
  | fuel + 1, cs, acc =>
    match cs with
    | '"' :: r1 =>
      match parseJStr r1 with
      | some (k, r2) =>
        (match skipWs r2 with
         | ':' :: r3 =>
           (match parseVal fuel (skipWs r3) with
            | .ok (v, r4) =>
              (match skipWs r4 with
               | '\x7d' :: r5 =>
                 .ok (.dict (duplicate_object_hook (acc ++ [(String.mk k, v)])), r5)
               | ',' :: r5 => parseMembers fuel (skipWs r5) (acc ++ [(String.mk k, v)])
               | [] => .error .unexpectedEnd
               | c :: _ => .error (.unexpectedChar c))
            | .error e => .error e)
         | [] => .error .unexpectedEnd
         | c :: _ => .error (.unexpectedChar c))
      | none => .error .invalid
    | [] => .error .unexpectedEnd
    | c :: _ => .error (.unexpectedChar c)

/-- Elements of a JSON array, positioned at an element's first character. -/
def parseElems : Nat → List Char → List PyVal → Except JErr (PyVal × List Char)
  | 0, _, _ => .error .invalid
  | fuel + 1, cs, acc =>
    match parseVal fuel cs with
    | .ok (v, r1) =>
      (match skipWs r1 with
       | ']' :: r2 => .ok (.list (acc ++ [v]), r2)
       | ',' :: r2 => parseElems fuel (skipWs r2) (acc ++ [v])
       | [] => .error .unexpectedEnd
       | c :: _ => .error (.unexpectedChar c))
    | .error e => .error e

end

/-- `json.loads(s, object_pairs_hook=_duplicate_object_hook)`: one value,
surrounded by optional whitespace, with nothing after it. -/
def jsonLoads (s : String) : Except JErr PyVal :=
  match parseVal (4 * s.data.length + 16) (skipWs s.data) with
  | .ok (v, rest) => if skipWs rest = [] then .ok v else .error .invalid
  | .error e => .error e

/-- The input-cleaning stage at the top of `sfs_parse`:
`sfs.replace("\t", '').replace(" \n", '\n').replace('\n ', '\n')`. -/
def cleanSfs (s : String) : String :=
  pyReplace (pyReplace (pyReplace s "\t" "") " \n" "\n") "\n " "\n"

/-- One iteration of the dedenting-brace fix-up with `i` braces:
`sfs.replace(',\n"' + '}'*i, '}'*i + ',\n"')`. -/
def dedentStep (i : Nat) (s : String) : String :=
  pyReplace s (",\n\"" ++ String.mk (List.replicate i '\x7d'))
    (String.mk (List.replicate i '\x7d') ++ ",\n\"")

/-- The loop `for n in range(args.d): i = args.d - n; ...` of `sfs_parse`:
applies `dedentStep` for `i = d, d-1, ..., 1`. -/
def dedentLoop : Nat → String → String
  | 0, s => s
  | i + 1, s => dedentLoop i (dedentStep (i + 1) s)

/-- Python `s[:-3]`: drop the last three characters (all of them when the
string is shorter). -/
def dropLast3 (s : String) : String :=
  String.mk (s.data.take (s.data.length - 3))

/-- The grammar-translation part of `sfs_parse` (the straight-line sequence
of `str.replace` calls plus the dedent loop and the unconditional start/end
patch), with the max-depth global `args.d` made an explicit parameter
(default 16 in the CLI). -/
def sfs_translate (d : Nat) (s : String) : String :=
  let s1 := cleanSfs s
  let s2 := pyReplace s1 "\x7d\n" "\x7d"
  let s3 := pyReplace s2 "\n\x7b" ":\x7b"
  let s4 := pyReplace s3 "\x7b\n\x7d" "\x7b\x7d\n"
  let s5 := pyReplace s4 " =\n" " = \n"
  let s6 := pyReplace s5 " = " "\":\""
  let s7 := pyReplace s6 "\n" "\",\n\""
  let s8 := pyReplace s7 ":\x7b\"," "\":\x7b"
  let s9 := pyReplace s8 ":\x7b\x7d\"" "\":\x7b\x7d"
  let s10 := dedentLoop d s9
  "\x7b\"" ++ dropLast3 s10 ++ "\x7d"

/-- `sfs_parse` on string input with depth `d`: translate, then decode with
the duplicate-aware hook.  On `json.decoder.JSONDecodeError` the Python
function prints the error and returns `False`; that failure outcome is
modelled as `Except.error` carrying the decoder's error, and the success
outcome as `Except.ok` carrying the tree. -/
def sfs_parse (d : Nat) (s : String) : Except JErr PyVal :=
  jsonLoads (sfs_translate d s)

/-- Python exceptions that the data-handling functions can raise: the key
carried by a `KeyError` is either a string or an int (`PathKey`). -/
inductive PathKey where
  | key : String → PathKey
  | idx : Int → PathKey
  deriving Repr, DecidableEq

/-- Exceptions raised by the retyping and path-lookup code. -/
inductive PyExc where
  | attributeError : PyExc
  | keyError : PathKey → PyExc
  | indexError : PyExc
  | typeError : PyExc
  deriving Repr, DecidableEq

/-- `_string_to_object` from `retype_data`: the literal branches compare
against the exact spellings `'True'/'true'`, `'False'/'false'`,
`'None'/'none'`, `'Infinity'`; then the try-block splits on commas and
builds floats (a `ValueError` — modelled by `floatListTry` returning
`none` — abandons the whole block); a 3- or 4-element float list becomes a
tuple; then `int(obj)`, then `float(obj)`, then the string itself.
A non-string argument falls past the equality tests (no Python string
compares equal to a non-string) and raises `AttributeError` at
`obj.split(',')`, which no handler catches. -/
def floatListTry : List String → Option (List String)
  | [] => some []
  | x :: xs =>
    if pyFloatOk x then
      match floatListTry xs with
      | some r => some (floatTok x :: r)
      | none => none
    else none

/-- See `floatListTry`'s doc comment: the per-leaf forward coercion. -/
def string_to_object : PyVal → Except PyExc PyVal
  | .str obj =>
    if obj = "True" ∨ obj = "true" then .ok (.bool true)
    else if obj = "False" ∨ obj = "false" then .ok (.bool false)
    else if obj = "None" ∨ obj = "none" then .ok .pynone
    else if obj = "Infinity" then .ok (.str obj)
    else
      match floatListTry ((splitOnCh ',' obj.data).map String.mk) with
      | some a =>
        if a.length = 3 ∨ a.length = 4 then .ok (.tuple (a.map PyVal.float))
        else
          match pyIntParse obj with
          | some n => .ok (.int n)
          | none => if pyFloatOk obj then .ok (.float (floatTok obj)) else .ok (.str obj)
      | none =>
        match pyIntParse obj with
        | some n => .ok (.int n)
        | none => if pyFloatOk obj then .ok (.float (floatTok obj)) else .ok (.str obj)
  | _ => .error .attributeError

mutual

/-- Python `str()` of a leaf value as produced by `_object_to_string`
(floats symbolically, see the file header; the dict and list arms are
unreachable through `retype_data`, whose recursion descends into them
before stringifying, and are given their Python bracket shapes). -/
def pyStr : PyVal → String
  | .str s => s
  | .bool b => if b then "True" else "False"
  | .pynone => "None"
  | .int n => toString n
  | .float f => f
  | .tuple l => "(" ++ pyStrJoin l ++ (if l.length = 1 then ",)" else ")")
  | .list l => "[" ++ pyStrJoin l ++ "]"
  | .dict _ => "\x7b...\x7d"

/-- Comma-join of stringified elements, as in Python container `str()`. -/
def pyStrJoin : List PyVal → String
  | [] => ""
  | [v] => pyStr v
  | v :: rest => pyStr v ++ ", " ++ pyStrJoin rest

end

/-- `_object_to_string` from `retype_data`: both branches of its
`if type(obj) == bool` return `str(obj)`, so every leaf - booleans,
numbers, strings, and also tuples - is stringified; the function never
raises. -/
def object_to_string (v : PyVal) : Except PyExc PyVal :=
  .ok (.str (pyStr v))

mutual

/-- `_recursive_apply(func, obj)`: descend through dicts (per value, key
order kept) and lists (per element), apply `f` to every other value.
Exceptions propagate out immediately, aborting the whole traversal. -/
def recApply (f : PyVal → Except PyExc PyVal) : PyVal → Except PyExc PyVal
  | .dict d =>
    match recApplyPairs f d with
    | .ok d' => .ok (.dict d')
    | .error e => .error e
  | .list l =>
    match recApplyList f l with
    | .ok l' => .ok (.list l')
    | .error e => .error e
  | v => f v

/-- `recApply` over a dict's pairs, in order. -/
def recApplyPairs (f : PyVal → Except PyExc PyVal) :
    List (String × PyVal) → Except PyExc (List (String × PyVal))
  | [] => .ok []
  | (k, v) :: rest =>
    match recApply f v with
    | .ok v' =>
      (match recApplyPairs f rest with
       | .ok r => .ok ((k, v') :: r)
       | .error e => .error e)
    | .error e => .error e

/-- `recApply` over a list's elements, in order. -/
def recApplyList (f : PyVal → Except PyExc PyVal) :
    List PyVal → Except PyExc (List PyVal)
  | [] => .ok []
  | v :: rest =>
    match recApply f v with
    | .ok v' =>
      (match recApplyList f rest with
       | .ok r => .ok (v' :: r)
       | .error e => .error e)
    | .error e => .error e

end

/-- `retype_data(data, reverse)`: forward applies `_string_to_object` to
every leaf, reverse applies `_object_to_string`. -/
def retype_data (data : PyVal) (reverse : Bool) : Except PyExc PyVal :=
  if reverse then recApply object_to_string data else recApply string_to_object data

/-- Python subscription `data[k]` as used by `_dict_reference_from_list`:
dict by string key (`KeyError` when missing; an int key is simply absent
from these string-keyed dicts, so it also raises `KeyError`); list and
tuple by int index with Python's negative indexing (`IndexError` out of
range, `TypeError` for a string key); a string scalar is also indexable by
int, yielding a one-character string; every other leaf is unsubscriptable
(`TypeError`). -/
def seqAt (n : Nat) (l : List PyVal) (i : Int) : Except PyExc PyVal :=
  if 0 ≤ (if i < 0 then i + n else i) ∧ (if i < 0 then i + n else i) < n then
    match l.get? (if i < 0 then i + n else i).toNat with
    | some v => .ok v
    | none => .error .indexError
  else .error .indexError

/-- See `seqAt`'s doc comment. -/
def pySubscript (data : PyVal) (k : PathKey) : Except PyExc PyVal :=
  match data, k with
  | .dict d, .key s =>
    (match lookupStr d s with
     | some v => .ok v
     | none => .error (.keyError (.key s)))
  | .dict _, .idx n => .error (.keyError (.idx n))
  | .list l, .idx n => seqAt l.length l n
  | .list _, .key _ => .error .typeError
  | .tuple l, .idx n => seqAt l.length l n
  | .tuple _, .key _ => .error .typeError
  | .str s, .idx n =>
    (match seqAt s.data.length (s.data.map (fun c => PyVal.str (String.mk [c]))) n with
     | .ok v => .ok v
     | .error e => .error e)
  | .str _, .key _ => .error .typeError
  | _, _ => .error .typeError

/-- `_dict_reference_from_list(data, keys)`: walk the steps in order,
propagating any exception. -/
def dict_reference_from_list (data : PyVal) : List PathKey → Except PyExc PyVal
  | [] => .ok data
  | k :: ks =>
    match pySubscript data k with
    | .ok v => dict_reference_from_list v ks
    | .error e => .error e

/-- The segments of a reference: split on `/` after stripping every
trailing slash (`reference.rstrip('/').split('/')`; never empty). -/
def pathSegments (reference : String) : List String :=
  (splitOnCh '/' (rstripSlash reference.data)).map String.mk

/-- The speculative integer conversion applied to each segment:
`int(step)` on success, the segment itself on `ValueError`. -/
def stepOfSeg (seg : String) : PathKey :=
  match pyIntParse seg with
  | some n => .idx n
  | none => .key seg

/-- `_tree_path_split(reference, branch)`: if the last segment is the
literal `ALL`, the branch alone; otherwise the branch followed by the
converted segments. -/
def tree_path_split (reference : String) (branch : List String) : List PathKey :=
  let path := pathSegments reference
  if path.getLast? = some "ALL" then branch.map PathKey.key
  else branch.map PathKey.key ++ path.map stepOfSeg

/-- `inspect_data(data, path)` on a string path: split with the default
branch `["GAME"]`, then resolve. -/
def inspect_data (data : PyVal) (path : String) : Except PyExc PyVal :=
  dict_reference_from_list data (tree_path_split path ["GAME"])

/-- The per-scalar forward-coercion contract as the (amended) specification
words it, written from the spec's rule list for comparison with the
source-derived `string_to_object`: (1) exact match against the two
spellings `True`/`true` (resp. `False`/`false`) gives a boolean; (2) exact
match against `None`/`none` gives null; (3) the exact text `Infinity` is
left as that string; (4) a comma-split into exactly 3 or 4 components,
every one float-parseable, gives a numeric tuple of that length, and any
other arity or any unparseable component leaves the whole string to the
later rules; (5) integer-parseable gives an integer; (6) float-parseable
(including `NaN`) gives a float; (7) otherwise the string is unchanged. -/
def coerceSpec (s : String) : PyVal :=
  if s = "True" ∨ s = "true" then .bool true
  else if s = "False" ∨ s = "false" then .bool false
  else if s = "None" ∨ s = "none" then .pynone
  else if s = "Infinity" then .str s
  else
    let comps := (splitOnCh ',' s.data).map String.mk
    if (comps.length = 3 ∨ comps.length = 4) ∧ comps.all pyFloatOk then
      .tuple (comps.map fun c => PyVal.float (floatTok c))
    else
      match pyIntParse s with
      | some n => .int n
      | none => if pyFloatOk s then .float (floatTok s) else .str s

/-- A leaf on which the forward coercion is the identity: a string that
rule 3 or rule 7 sends to itself. -/
def strFixedLeaf (v : PyVal) : Bool :=
  match v with
  | .str s =>
    (match string_to_object (.str s) with
     | .ok (.str t) => t = s
     | _ => false)
  | _ => false

mutual

/-- Every leaf of the tree is a string left unchanged by the forward
coercion (dicts and lists are traversed, everything else is a leaf). -/
def allStrFixed : PyVal → Bool
  | .dict d => allStrFixedPairs d
  | .list l => allStrFixedList l
  | v => strFixedLeaf v

/-- `allStrFixed` over a dict's pairs. -/
def allStrFixedPairs : List (String × PyVal) → Bool
  | [] => true
  | (_, v) :: rest => allStrFixed v && allStrFixedPairs rest

/-- `allStrFixed` over a list's elements. -/
def allStrFixedList : List PyVal → Bool
  | [] => true
  | v :: rest => allStrFixed v && allStrFixedList rest

end

/-- Whether an `Except` carries a success. -/
def exOk {ε α : Type} : Except ε α → Bool
  | .ok _ => true
  | .error _ => false

/-! Helper lemmas. -/

/-- Closed form of the try-block float traversal: it succeeds exactly when
every component is float-parseable, and then yields the component tokens. -/
theorem floatListTry_eq (xs : List String) :
    floatListTry xs = if xs.all pyFloatOk then some (xs.map floatTok) else none := by
  induction xs with
  | nil => simp [floatListTry]
  | cons x xs ih =>
    by_cases hx : pyFloatOk x
    · simp only [floatListTry, hx, if_true, ih, List.all_cons, Bool.true_and]
      by_cases hall : xs.all pyFloatOk
      · simp only [hall, if_true, List.map_cons]
      · simp only [hall, if_false, Bool.false_eq_true]
    · simp only [floatListTry, hx, if_false, List.all_cons, Bool.false_and,
        Bool.false_eq_true]

/-- Every character of a replacement result comes from the subject or from
the replacement text. -/
theorem mem_replaceFuel {c : Char} :
    ∀ (fuel : Nat) (s pat rep : List Char),
      c ∈ replaceFuel fuel s pat rep → c ∈ s ∨ c ∈ rep := by
  intro fuel
  induction fuel with
  | zero => intro s pat rep h; exact Or.inl h
  | succ n ih =>
    intro s pat rep h
    match s with
    | [] => simp [replaceFuel] at h
    | a :: rest =>
      rw [replaceFuel] at h
      by_cases hp : pat.isPrefixOf (a :: rest) = true
      · rw [if_pos hp] at h
        rcases List.mem_append.1 h with h1 | h1
        · exact Or.inr h1
        · rcases ih _ _ _ h1 with h2 | h2
          · exact Or.inl (List.drop_subset _ _ h2)
          · exact Or.inr h2
      · rw [if_neg hp] at h
        rcases List.mem_cons.1 h with h1 | h1
        · exact Or.inl (h1 ▸ List.mem_cons_self _ _)
        · rcases ih _ _ _ h1 with h2 | h2
          · exact Or.inl (List.mem_cons_of_mem _ h2)
          · exact Or.inr h2

/-- Replacing a single-character pattern by text not containing it removes
every occurrence of that character. -/
theorem replaceFuel_single_removes {c : Char} {rep : List Char} (hc : c ∉ rep) :
    ∀ (fuel : Nat) (s : List Char), s.length ≤ fuel →
      c ∉ replaceFuel fuel s [c] rep := by
  intro fuel
  induction fuel with
  | zero =>
    intro s hs
    have hnil : s = [] := List.length_eq_zero.mp (Nat.le_zero.mp hs)
    subst hnil; simp [replaceFuel]
  | succ n ih =>
    intro s hs
    match s with
    | [] => simp [replaceFuel]
    | a :: rest =>
      rw [replaceFuel]
      by_cases hp : [c].isPrefixOf (a :: rest) = true
      · rw [if_pos hp]
        intro hmem
        rcases List.mem_append.1 hmem with h1 | h1
        · exact hc h1
        · have hd : (a :: rest).drop ([c].length) = rest := rfl
          rw [hd] at h1
          exact ih rest (Nat.le_of_succ_le_succ hs) h1
      · rw [if_neg hp]
        intro hmem
        rcases List.mem_cons.1 hmem with h1 | h1
        · exact hp (by simp [List.isPrefixOf, h1])
        · exact ih rest (Nat.le_of_succ_le_succ hs) h1

/-- A replace pass whose subject and replacement are tab-free yields a
tab-free result. -/
theorem pyReplace_preserves_no_tab (s pat rep : String)
    (hs : '\t' ∉ s.data) (hr : '\t' ∉ rep.data) :
    '\t' ∉ (pyReplace s pat rep).data := by
  unfold pyReplace
  by_cases h : pat.data = []
  · simpa [h] using hs
  · rw [if_neg h]
    intro hmem
    rcases mem_replaceFuel _ _ _ _ hmem with h1 | h1
    · exact hs h1
    · exact hr h1

/-- The tab-deletion pass leaves no tab anywhere. -/
theorem tab_stage_removes (s : String) : '\t' ∉ (pyReplace s "\t" "").data := by
  unfold pyReplace
  rw [if_neg (by decide)]
  exact replaceFuel_single_removes (by simp) _ _ (Nat.le_refl _)

/-- The full cleaning stage leaves no tab anywhere. -/
theorem cleanSfs_no_tab (s : String) : '\t' ∉ (cleanSfs s).data := by
  unfold cleanSfs
  exact pyReplace_preserves_no_tab _ _ _
    (pyReplace_preserves_no_tab _ _ _ (tab_stage_removes s) (by decide)) (by decide)

/-- `rstrip('/')` absorbs a trailing slash. -/
theorem rstripSlash_append_slash (l : List Char) :
    rstripSlash (l ++ ['/']) = rstripSlash l := by
  unfold rstripSlash
  rw [List.reverse_append]
  simp [List.dropWhile]

/-- Path splitting is blind to a trailing slash. -/
theorem pathSegments_trailing_slash (r : String) :
    pathSegments (r ++ "/") = pathSegments r := by
  unfold pathSegments
  rw [String.data_append, show ("/" : String).data = ['/'] from rfl,
    rstripSlash_append_slash]

/-- A character not satisfying the predicate survives `dropWhile`. -/
theorem mem_dropWhile_of_not {p : Char → Bool} {c : Char} (hc : p c = false) :
    ∀ {l : List Char}, c ∈ l → c ∈ l.dropWhile p := by
  intro l hl
  induction l with
  | nil => simp at hl
  | cons a t ih =>
    by_cases ha : p a
    · rw [List.dropWhile_cons_of_pos ha]
      rcases List.mem_cons.1 hl with h1 | h1
      · subst h1; rw [ha] at hc; simp at hc
      · exact ih h1
    · rw [List.dropWhile_cons_of_neg ha]
      exact hl

/-- A non-whitespace character survives whitespace stripping. -/
theorem mem_trimWs_of_not_ws {c : Char} (hc : isPyWs c = false) {l : List Char}
    (hl : c ∈ l) : c ∈ trimWs l := by
  unfold trimWs
  rw [List.mem_reverse]
  apply mem_dropWhile_of_not hc
  rw [List.mem_reverse]
  exact mem_dropWhile_of_not hc hl

/-- The stripped text of an int-parseable string consists of an optional
sign and digits only. -/
theorem pyIntParse_chars {seg : String} {n : Int} (h : pyIntParse seg = some n) :
    ∀ c ∈ trimWs seg.data, c = '+' ∨ c = '-' ∨ c.isDigit := by
  intro c hc
  unfold pyIntParse at h
  split at h
  case _ ds heq =>
    rw [heq] at hc
    rcases List.mem_cons.1 hc with h1 | h1
    · exact Or.inl h1
    · split at h
      case isTrue hcond => exact Or.inr (Or.inr (List.all_eq_true.mp hcond.2 c h1))
      case isFalse => simp at h
  case _ ds heq =>
    rw [heq] at hc
    rcases List.mem_cons.1 hc with h1 | h1
    · exact Or.inr (Or.inl h1)
    · split at h
      case isTrue hcond => exact Or.inr (Or.inr (List.all_eq_true.mp hcond.2 c h1))
      case isFalse => simp at h
  case _ hne1 hne2 =>
    split at h
    case isTrue hcond => exact Or.inr (Or.inr (List.all_eq_true.mp hcond.2 c hc))
    case isFalse => simp at h

/-- Splitting a list free of the separator is the identity grouping. -/
theorem splitOnCh_eq_self {sep : Char} : ∀ {l : List Char}, (∀ c ∈ l, c ≠ sep) →
    splitOnCh sep l = [l] := by
  intro l h
  induction l with
  | nil => rfl
  | cons a t ih =>
    have ha : ¬ a = sep := h a (List.mem_cons_self _ _)
    rw [splitOnCh, if_neg ha, ih fun c hc => h c (List.mem_cons_of_mem _ hc)]

/-- Stripping trailing slashes from a slash-free list is the identity. -/
theorem rstripSlash_eq_self {l : List Char} (h : ∀ c ∈ l, c ≠ '/') :
    rstripSlash l = l := by
  unfold rstripSlash
  have hd : l.reverse.dropWhile (fun c => c = '/') = l.reverse := by
    cases hr : l.reverse with
    | nil => rfl
    | cons a t =>
      have ha : a ∈ l := by rw [← List.mem_reverse, hr]; exact List.mem_cons_self _ _
      rw [List.dropWhile_cons_of_neg (by simp [h a ha])]
  rw [hd, List.reverse_reverse]

/-- An int-parseable reference is a single segment of itself. -/
theorem pathSegments_intParse {seg : String} {n : Int} (h : pyIntParse seg = some n) :
    pathSegments seg = [seg] := by
  have hchars := pyIntParse_chars h
  have hnoslash : ∀ c ∈ seg.data, c ≠ '/' := by
    intro c hc he
    subst he
    rcases hchars '/' (mem_trimWs_of_not_ws (by decide) hc) with h1 | h1 | h1 <;> simp at h1
  unfold pathSegments
  rw [rstripSlash_eq_self hnoslash, splitOnCh_eq_self hnoslash]
  rfl

/-- An int-parseable segment is not the sentinel `ALL`. -/
theorem intParse_ne_ALL {seg : String} {n : Int} (h : pyIntParse seg = some n) :
    seg ≠ "ALL" := by
  intro he
  subst he
  exact Option.noConfusion h

mutual

/-- On a tree whose leaves all coerce to themselves, the forward traversal
is the identity. -/
theorem recApply_fwd_id : ∀ (v : PyVal), allStrFixed v = true →
    recApply string_to_object v = .ok v
  | .dict d, h => by
    have hd := recApplyPairs_fwd_id d (by simpa [allStrFixed] using h)
    simp [recApply, hd]
  | .list l, h => by
    have hl := recApplyList_fwd_id l (by simpa [allStrFixed] using h)
    simp [recApply, hl]
  | .str s, h => by
    simp only [allStrFixed, strFixedLeaf] at h
    rcases hso : string_to_object (.str s) with e | v
    · rw [hso] at h; simp at h
    · rw [hso] at h
      cases v with
      | str t => simp at h; subst h; simpa [recApply] using hso
      | bool b => simp at h
      | pynone => simp at h
      | int n => simp at h
      | float f => simp at h
      | tuple l => simp at h
      | list l => simp at h
      | dict d => simp at h
  | .bool b, h => by simp [allStrFixed, strFixedLeaf] at h
  | .pynone, h => by simp [allStrFixed, strFixedLeaf] at h
  | .int n, h => by simp [allStrFixed, strFixedLeaf] at h
  | .float f, h => by simp [allStrFixed, strFixedLeaf] at h
  | .tuple l, h => by simp [allStrFixed, strFixedLeaf] at h

/-- `recApply_fwd_id` over dict pairs. -/
theorem recApplyPairs_fwd_id : ∀ (d : List (String × PyVal)), allStrFixedPairs d = true →
    recApplyPairs string_to_object d = .ok d
  | [], _ => rfl
  | (k, v) :: rest, h => by
    simp only [allStrFixedPairs, Bool.and_eq_true] at h
    have hv := recApply_fwd_id v h.1
    have hr := recApplyPairs_fwd_id rest h.2
    simp [recApplyPairs, hv, hr]

/-- `recApply_fwd_id` over list elements. -/
theorem recApplyList_fwd_id : ∀ (l : List PyVal), allStrFixedList l = true →
    recApplyList string_to_object l = .ok l
  | [], _ => rfl
  | v :: rest, h => by
    simp only [allStrFixedList, Bool.and_eq_true] at h
    have hv := recApply_fwd_id v h.1
    have hr := recApplyList_fwd_id rest h.2
    simp [recApplyList, hv, hr]

end

mutual

/-- The reverse traversal always succeeds (its leaf function is total). -/
theorem recApply_rev_ok : ∀ (v : PyVal), ∃ w, recApply object_to_string v = .ok w
  | .dict d => by
    obtain ⟨d', hd⟩ := recApplyPairs_rev_ok d
    exact ⟨.dict d', by simp [recApply, hd]⟩
  | .list l => by
    obtain ⟨l', hl⟩ := recApplyList_rev_ok l
    exact ⟨.list l', by simp [recApply, hl]⟩
  | .str s => ⟨_, rfl⟩
  | .bool b => ⟨_, rfl⟩
  | .pynone => ⟨_, rfl⟩
  | .int n => ⟨_, rfl⟩
  | .float f => ⟨_, rfl⟩
  | .tuple l => ⟨_, rfl⟩

/-- `recApply_rev_ok` over dict pairs. -/
theorem recApplyPairs_rev_ok : ∀ (d : List (String × PyVal)),
    ∃ d', recApplyPairs object_to_string d = .ok d'
  | [] => ⟨[], rfl⟩
  | (k, v) :: rest => by
    obtain ⟨v', hv⟩ := recApply_rev_ok v
    obtain ⟨r', hr⟩ := recApplyPairs_rev_ok rest
    exact ⟨(k, v') :: r', by simp [recApplyPairs, hv, hr]⟩

/-- `recApply_rev_ok` over list elements. -/
theorem recApplyList_rev_ok : ∀ (l : List PyVal),
    ∃ l', recApplyList object_to_string l = .ok l'
  | [] => ⟨[], rfl⟩
  | v :: rest => by
    obtain ⟨v', hv⟩ := recApply_rev_ok v
    obtain ⟨r', hr⟩ := recApplyList_rev_ok rest
    exact ⟨v' :: r', by simp [recApplyList, hv, hr]⟩

end

/-!  Claim theorems. -/

/-- Claim C1: the duplicate-aware tree builder scans an object's pairs in
source order and groups by adjacency: a run of two or more consecutive
pairs with the same key maps the key to the ordered sequence of the run's
values; a run of exactly one pair maps the key to that value unchanged
(not a one-element sequence); two same-key occurrences separated by a
different key are not merged - the later run overwrites the earlier one
under last-value-wins dict semantics; and the rule is applied recursively
to nested objects (last conjunct, through `jsonLoads`). -/
theorem duplicate_object_hook_adjacency_grouping (k j : String)
    (v1 v2 v3 w : PyVal) (hkj : j ≠ k) :
    duplicate_object_hook [(k, v1), (k, v2), (k, v3)] = [(k, PyVal.list [v1, v2, v3])]
    ∧ duplicate_object_hook [(k, v1)] = [(k, v1)]
    ∧ duplicate_object_hook [(k, v1), (j, w), (k, v2)] = [(k, v2), (j, w)]
    ∧ jsonLoads "\x7b\"A\":\x7b\"K\":\"1\",\"K\":\"2\"\x7d\x7d"
        = .ok (PyVal.dict [("A", PyVal.dict
            [("K", PyVal.list [PyVal.str "1", PyVal.str "2"])])]) := by
  refine ⟨?_, ?_, ?_, by rfl⟩
  · simp [duplicate_object_hook, gpairs, groupRuns, dictOfPairs, dictSet]
  · simp [duplicate_object_hook, gpairs, groupRuns, dictOfPairs, dictSet]
  · simp [duplicate_object_hook, gpairs, groupRuns, dictOfPairs, dictSet, hkj, Ne.symm hkj]

/-- Witness for C1 at `K`/`J` with string values. -/
theorem duplicate_object_hook_adjacency_grouping_witness :
    duplicate_object_hook [("K", PyVal.str "1"), ("K", PyVal.str "2"), ("K", PyVal.str "3")]
      = [("K", PyVal.list [PyVal.str "1", PyVal.str "2", PyVal.str "3"])]
    ∧ duplicate_object_hook [("K", PyVal.str "1")] = [("K", PyVal.str "1")]
    ∧ duplicate_object_hook [("K", PyVal.str "1"), ("J", PyVal.str "x"), ("K", PyVal.str "2")]
        = [("K", PyVal.str "2"), ("J", PyVal.str "x")]
    ∧ jsonLoads "\x7b\"A\":\x7b\"K\":\"1\",\"K\":\"2\"\x7d\x7d"
        = .ok (PyVal.dict [("A", PyVal.dict
            [("K", PyVal.list [PyVal.str "1", PyVal.str "2"])])]) :=
  duplicate_object_hook_adjacency_grouping "K" "J" (PyVal.str "1") (PyVal.str "2")
    (PyVal.str "3") (PyVal.str "x") (by decide)

/-- Counterexample to claim C2 as stated: `TRUE` is a case-insensitive
match of `true` (first conjunct), yet the coercion returns it as the
unchanged string, not a boolean - only the exact spellings `True`/`true`
are recognised. -/
theorem string_to_object_not_case_insensitive :
    "TRUE".data.map Char.toLower = "true".data
    ∧ string_to_object (PyVal.str "TRUE") = .ok (PyVal.str "TRUE") := by
  constructor
  · decide
  · rfl

/-- Claim C2 (amended: the boolean/null literal matches are against the
exact spellings `True`/`true`, `False`/`false`, `None`/`none`, not
case-insensitive): for every scalar string the forward coercion agrees
with the spec-side rule list `coerceSpec` - literals first, the exact text
`Infinity` kept as a string, then the 3-or-4-component all-float comma
split to a tuple with any other arity or unparseable component falling
through to the whole-string integer, float, and identity rules, in that
order, first match winning. -/
theorem string_to_object_matches_amended_coercion_spec (s : String) :
    string_to_object (PyVal.str s) = .ok (coerceSpec s) := by
  unfold string_to_object coerceSpec
  by_cases h1 : s = "True" ∨ s = "true"
  · simp [h1]
  by_cases h2 : s = "False" ∨ s = "false"
  · simp [h1, h2]
  by_cases h3 : s = "None" ∨ s = "none"
  · simp [h1, h2, h3]
  by_cases h4 : s = "Infinity"
  · simp [h1, h2, h3, h4]
  simp only [h1, h2, h3, h4, if_false]
  rw [floatListTry_eq]
  by_cases hall : ((splitOnCh ',' s.data).map String.mk).all pyFloatOk
  · simp only [hall, if_true, and_true]
    by_cases hlen : ((splitOnCh ',' s.data).map String.mk).length = 3 ∨
        ((splitOnCh ',' s.data).map String.mk).length = 4
    · simp only [List.length_map] at hlen
      simp only [List.length_map, hlen, if_true, List.map_map]
      simp [Function.comp]
    · simp only [List.length_map] at hlen
      simp only [List.length_map, hlen, if_false]
      cases hp : pyIntParse s <;> simp [apply_ite]
  · simp only [hall, if_neg, Bool.false_eq_true, and_false, if_false]
    cases hp : pyIntParse s <;> simp [apply_ite]

/-- Counterexample to claim C3 as stated: one forward pass turns the leaf
`"42"` into the integer `42`, and a second pass then raises
`AttributeError` at `obj.split(',')` (only `ValueError` is handled), so
`retype(retype(x))` is not `retype(x)` - the second pass does not skip
non-string leaves. -/
theorem retype_data_not_idempotent :
    retype_data (PyVal.dict [("K", PyVal.str "42")]) false
      = .ok (PyVal.dict [("K", PyVal.int 42)])
    ∧ (retype_data (PyVal.dict [("K", PyVal.str "42")]) false).bind
        (fun y => retype_data y false) = .error PyExc.attributeError
    ∧ (Except.error PyExc.attributeError : Except PyExc PyVal)
        ≠ .ok (PyVal.dict [("K", PyVal.int 42)]) :=
  ⟨rfl, rfl, fun h => Except.noConfusion h⟩

/-- Claim C3 (amended: the double-application equation holds only for
trees whose scalar leaves all coerce to themselves - on any leaf already
coerced to a non-string the second pass raises `AttributeError` instead of
skipping it, see the counterexample): on such string-fixed trees the
forward pass is the identity and hence idempotent. -/
theorem retype_data_idempotent_on_string_fixed_trees (x : PyVal)
    (h : allStrFixed x = true) :
    (retype_data x false).bind (fun y => retype_data y false) = retype_data x false
    ∧ retype_data x false = .ok x := by
  have hx := recApply_fwd_id x h
  constructor
  · simp [retype_data, hx, Except.bind]
  · simpa [retype_data] using hx

/-- Witness for C3's amended theorem on a one-leaf tree. -/
theorem retype_data_idempotent_on_string_fixed_trees_witness :
    (retype_data (PyVal.dict [("K", PyVal.str "hello")]) false).bind
      (fun y => retype_data y false)
      = retype_data (PyVal.dict [("K", PyVal.str "hello")]) false
    ∧ retype_data (PyVal.dict [("K", PyVal.str "hello")]) false
        = .ok (PyVal.dict [("K", PyVal.str "hello")]) :=
  retype_data_idempotent_on_string_fixed_trees
    (PyVal.dict [("K", PyVal.str "hello")]) (by rfl)

/-- Claim C4: the input `TOP\n{\nKEY = value\n}\n`, translated and parsed
with the default depth 16, yields exactly the tree
`{"TOP": {"KEY": "value"}}`. -/
theorem sfs_parse_minimal_end_to_end :
    sfs_parse 16 "TOP\n\x7b\nKEY = value\n\x7d\n"
      = .ok (PyVal.dict [("TOP", PyVal.dict [("KEY", PyVal.str "value")])]) := by
  rfl

/-- Counterexample to claim C5 as stated: a member value is not carried
over verbatim - the tab inside `KEY = a\tb` is deleted by the global tab
removal, so the stored value is `ab`, not `a\tb`. -/
theorem sfs_parse_interior_tab_not_verbatim :
    sfs_parse 16 "TOP\n\x7b\nKEY = a\tb\n\x7d\n"
      = .ok (PyVal.dict [("TOP", PyVal.dict [("KEY", PyVal.str "ab")])])
    ∧ ("ab" : String) ≠ "a\tb" := by
  refine ⟨by rfl, by decide⟩

/-- Claim C5 (amended: the cleaning stage removes every tab character
anywhere in the text, not only at line ends, and strips only a single
leading and a single trailing space per line, not all horizontal
whitespace): no tab survives cleaning; exactly one trailing (resp.
leading) space is dropped, so a doubled space leaves one behind; and a
blank-value assignment `KEY =` is normalised to the empty string. -/
theorem sfs_line_cleaning_amended :
    (∀ s : String, '\t' ∉ (cleanSfs s).data)
    ∧ cleanSfs "KEY = value  \n" = "KEY = value \n"
    ∧ cleanSfs "\n  KEY" = "\n KEY"
    ∧ sfs_parse 16 "TOP\n\x7b\nKEY =\n\x7d\n"
        = .ok (PyVal.dict [("TOP", PyVal.dict [("KEY", PyVal.str "")])])
    ∧ sfs_parse 16 "TOP\n\x7b\nKEY = value  \n\x7d\n"
        = .ok (PyVal.dict [("TOP", PyVal.dict [("KEY", PyVal.str "value ")])]) :=
  ⟨cleanSfs_no_tab, by rfl, by rfl, by rfl, by rfl⟩

/-- Claim C6: whenever the translated intermediate text fails to decode as
JSON, `sfs_parse` surfaces exactly the decoder's error (the Python code
prints it and returns `False`) and produces no tree at all. -/
theorem sfs_parse_propagates_decode_error (d : Nat) (s : String) (e : JErr)
    (h : jsonLoads (sfs_translate d s) = .error e) :
    sfs_parse d s = .error e ∧ ∀ v, sfs_parse d s ≠ .ok v := by
  refine ⟨h, ?_⟩
  intro v hv
  unfold sfs_parse at hv
  rw [h] at hv
  exact Except.noConfusion hv

/-- Witness for C6: the empty document translates to the malformed text
`{"}` and parsing it fails with no tree. -/
theorem sfs_parse_propagates_decode_error_witness :
    sfs_parse 16 "" = .error JErr.invalid ∧ ∀ v, sfs_parse 16 "" ≠ .ok v :=
  sfs_parse_propagates_decode_error 16 "" JErr.invalid (by rfl)

/-- Claim C7: path resolution ignores trailing slashes; a trailing `ALL`
segment resolves to the default prefix itself, every other segment
ignored; otherwise the walk covers the prefix keys followed by the
segments, each converted to a sequence index when it parses as an integer
and used as a mapping key when it does not, applied strictly in order
(last conjunct: the resolver consumes steps head first). -/
theorem tree_path_resolution_spec (r : String) (b : List String) :
    tree_path_split (r ++ "/") b = tree_path_split r b
    ∧ ((pathSegments r).getLast? = some "ALL" →
        tree_path_split r b = b.map PathKey.key)
    ∧ ((pathSegments r).getLast? ≠ some "ALL" →
        tree_path_split r b = b.map PathKey.key ++ (pathSegments r).map stepOfSeg)
    ∧ ∀ (data : PyVal) (k : PathKey) (ks : List PathKey),
        dict_reference_from_list data (k :: ks) =
          (match pySubscript data k with
           | .ok v => dict_reference_from_list v ks
           | .error e => .error e) := by
  refine ⟨?_, ?_, ?_, ?_⟩
  · unfold tree_path_split
    rw [pathSegments_trailing_slash]
  · intro h; simp [tree_path_split, h]
  · intro h; simp [tree_path_split, h]
  · intro data k ks; rfl

/-- Witness for C7: an `ALL` path collapses to the prefix, and an ordinary
path appends its converted segments. -/
theorem tree_path_resolution_spec_witness :
    tree_path_split "X/ALL" ["GAME"] = [PathKey.key "GAME"]
    ∧ tree_path_split "A/B" ["GAME"]
        = [PathKey.key "GAME", PathKey.key "A", PathKey.key "B"] := by
  constructor
  · exact (tree_path_resolution_spec "X/ALL" ["GAME"]).2.1 (by rfl)
  · exact ((tree_path_resolution_spec "A/B" ["GAME"]).2.2.1 (by decide)).trans (by rfl)

/-- Counterexample to claim C8 as stated: an absent resolution step does
not always surface as the `KeyError`-backed PathNotFound condition - an
out-of-range sequence index raises `IndexError`, a different failure mode
(and one the caller's `except KeyError` does not treat as PathNotFound). -/
theorem path_lookup_failure_not_keyerror :
    inspect_data (PyVal.dict [("GAME", PyVal.list [PyVal.str "a"])]) "5"
      = .error PyExc.indexError
    ∧ PyExc.indexError ≠ PyExc.keyError (PathKey.idx 5) :=
  ⟨by rfl, fun h => PyExc.noConfusion h⟩

/-- Claim C8 (amended: only mapping lookups fail with the `KeyError` that
the caller reports as PathNotFound - a missing string key, or any integer
segment applied to a mapping, both surfacing the missing key; an
out-of-range sequence index instead raises `IndexError` and a key segment
applied to a sequence or to a scalar raises `TypeError`, failure modes
distinct from PathNotFound). -/
theorem pySubscript_failure_modes (d : List (String × PyVal)) (s s2 : String)
    (n : Int) (l : List PyVal)
    (hmiss : lookupStr d s = none)
    (hoor : (l.length : Int) ≤ n ∨ n < -(l.length : Int)) :
    pySubscript (PyVal.dict d) (PathKey.key s) = .error (PyExc.keyError (PathKey.key s))
    ∧ pySubscript (PyVal.dict d) (PathKey.idx n) = .error (PyExc.keyError (PathKey.idx n))
    ∧ pySubscript (PyVal.list l) (PathKey.idx n) = .error PyExc.indexError
    ∧ pySubscript (PyVal.list l) (PathKey.key s) = .error PyExc.typeError
    ∧ pySubscript (PyVal.str s2) (PathKey.key s) = .error PyExc.typeError := by
  have hcond : ¬(0 ≤ (if n < 0 then n + (l.length : Int) else n)
      ∧ (if n < 0 then n + (l.length : Int) else n) < (l.length : Int)) := by
    rcases hoor with h | h
    · by_cases hn : n < 0
      · rw [if_pos hn]; omega
      · rw [if_neg hn]; omega
    · by_cases hn : n < 0
      · rw [if_pos hn]; omega
      · rw [if_neg hn]; omega
  refine ⟨by simp [pySubscript, hmiss], rfl, ?_, rfl, rfl⟩
  simp only [pySubscript, seqAt]
  rw [if_neg hcond]

/-- Witness for C8's amended theorem on concrete shapes. -/
theorem pySubscript_failure_modes_witness :
    pySubscript (PyVal.dict []) (PathKey.key "X") = .error (PyExc.keyError (PathKey.key "X"))
    ∧ pySubscript (PyVal.dict []) (PathKey.idx 3) = .error (PyExc.keyError (PathKey.idx 3))
    ∧ pySubscript (PyVal.list []) (PathKey.idx 3) = .error PyExc.indexError
    ∧ pySubscript (PyVal.list []) (PathKey.key "X") = .error PyExc.typeError
    ∧ pySubscript (PyVal.str "a") (PathKey.key "X") = .error PyExc.typeError :=
  pySubscript_failure_modes [] "X" "a" 3 [] (by rfl) (by decide)

/-- Counterexample to claim C9 as stated: invoked on a tuple produced by
the vector coercion, the reverse pass does not report any NotSupported
condition - it silently stringifies the tuple through `str()`, yielding
its Python repr text. -/
theorem retype_reverse_tuple_silently_stringified :
    retype_data (PyVal.dict [("K", PyVal.tuple
        [PyVal.float "1.0", PyVal.float "2.0", PyVal.float "3.0"])]) true
      = .ok (PyVal.dict [("K", PyVal.str "(1.0, 2.0, 3.0)")]) := by
  rfl

/-- Claim C9 (amended: the reverse pass stringifies booleans, numbers and
strings, and also tuples - via `str()` on every leaf - and never signals a
NotSupported condition: it succeeds on every tree). -/
theorem retype_reverse_total_stringification (v : PyVal) (b : Bool) (n : Int)
    (s f : String) (l : List PyVal) :
    exOk (retype_data v true) = true
    ∧ object_to_string (PyVal.bool b) = .ok (.str (if b then "True" else "False"))
    ∧ object_to_string (PyVal.int n) = .ok (.str (toString n))
    ∧ object_to_string (PyVal.str s) = .ok (.str s)
    ∧ object_to_string (PyVal.float f) = .ok (.str f)
    ∧ object_to_string (PyVal.tuple l) = .ok (.str (pyStr (PyVal.tuple l))) := by
  refine ⟨?_, rfl, rfl, rfl, rfl, rfl⟩
  obtain ⟨w, hw⟩ := recApply_rev_ok v
  simp [retype_data, hw, exOk]

/-- Claim C10: an int-parseable path segment is unconditionally converted
to an integer step, and an integer step applied to a mapping always raises
`KeyError` - so a mapping key that is a digit string (here present, by
`h2`) can never be addressed through the path-query entry point. -/
theorem digit_segment_key_unaddressable (d : List (String × PyVal)) (seg : String)
    (n : Int) (v : PyVal)
    (h1 : pyIntParse seg = some n) (h2 : lookupStr d seg = some v) :
    stepOfSeg seg = PathKey.idx n
    ∧ inspect_data (PyVal.dict [("GAME", PyVal.dict d)]) seg
        = .error (PyExc.keyError (PathKey.idx n)) := by
  have hs1 : pathSegments seg = [seg] := pathSegments_intParse h1
  have hs2 : seg ≠ "ALL" := intParse_ne_ALL h1
  constructor
  · simp [stepOfSeg, h1]
  · unfold inspect_data tree_path_split
    rw [hs1]
    simp only [List.getLast?_singleton, Option.some.injEq, hs2, if_false, List.map_cons,
      List.map_nil]
    simp [stepOfSeg, h1, dict_reference_from_list, pySubscript, lookupStr]

/-- Witness for C10: the key `"2"` exists in the mapping, yet path `2`
fails with `KeyError(2)`. -/
theorem digit_segment_key_unaddressable_witness :
    stepOfSeg "2" = PathKey.idx 2
    ∧ inspect_data (PyVal.dict [("GAME", PyVal.dict [("2", PyVal.str "x")])]) "2"
        = .error (PyExc.keyError (PathKey.idx 2)) :=
  digit_segment_key_unaddressable [("2", PyVal.str "x")] "2" 2 (PyVal.str "x")
    (by rfl) (by rfl)
